import Mathlib

/-!
Verification of the proxy-scraper repository (src/proxyScraper.py and
src/proxyChecker.py) against its natural-language specification.

The Python code is shallowly embedded: strings are modelled as `List Char`,
Python's `str.strip`, `str.split`, `int(...)` and the `ipaddress` IPv4 parser
are modelled as executable Lean functions, exceptional control flow becomes
`Option`/`Except`, and the validation run's threaded mutation of shared state
is determinised to submission order (the persisted result is order-independent
because it is sorted before writing).

Modelling notes:
* Python `int()` is modelled for an optional sign followed by ASCII digits
  (PEP 515 underscore separators and non-ASCII digits are not modelled).
* `str.strip` strips the ASCII whitespace characters.
-/

namespace ProxyRepo

/-- ASCII whitespace as stripped by Python `str.strip()`. -/
def pySpace (c : Char) : Bool :=
  c = ' ' || c = '\t' || c = '\n' || c = '\r' || c = '\x0b' || c = '\x0c'

/-- Python `s.strip()` on a character list. -/
def pyStrip (s : List Char) : List Char :=
  ((s.dropWhile pySpace).reverse.dropWhile pySpace).reverse

/-- Python `s.split(sep)` for a one-character separator. -/
def splitOnChar (sep : Char) : List Char → List (List Char)
  | [] => [[]]
  | c :: cs =>
    match splitOnChar sep cs with
    | [] => if c = sep then [[], []] else [[c]]
    | r :: rs => if c = sep then [] :: r :: rs else (c :: r) :: rs

/-- Python `s.split(sep, 1)` for a one-character separator: splits at the
first occurrence, `none` when the separator does not occur. -/
def splitOnce (sep : Char) : List Char → Option (List Char × List Char)
  | [] => none
  | c :: cs =>
    if c = sep then some ([], cs)
    else
      match splitOnce sep cs with
      | none => none
      | some (a, b) => some (c :: a, b)

/-- Numeric value of a list of ASCII digits. -/
def natOfDigits (ds : List Char) : Nat :=
  ds.foldl (fun a c => a * 10 + (c.toNat - 48)) 0

/-- Python `int(s)` on a string, modelled for an optional sign followed by
ASCII decimal digits, with surrounding whitespace stripped. -/
def pyInt? (s : List Char) : Option Int :=
  match pyStrip s with
  | '+' :: ds =>
    if ds ≠ [] ∧ ds.all Char.isDigit then some (natOfDigits ds) else none
  | '-' :: ds =>
    if ds ≠ [] ∧ ds.all Char.isDigit then some (-(natOfDigits ds : Int)) else none
  | ds =>
    if ds ≠ [] ∧ ds.all Char.isDigit then some (natOfDigits ds) else none

/-- One octet of a dotted-quad IPv4 literal, as accepted by Python's
`ipaddress` module: one to three ASCII digits, no leading zero, value ≤ 255. -/
def parseOctet? (s : List Char) : Option Nat :=
  if s = [] then none
  else if ¬ s.all Char.isDigit then none
  else if 3 < s.length then none
  else if 1 < s.length ∧ s.head? = some '0' then none
  else
    let v := natOfDigits s
    if v ≤ 255 then some v else none

/-- Python `ipaddress.ip_address` restricted to strings without a colon:
such a string parses only as an IPv4 dotted quad. -/
def parseIPv4? (s : List Char) : Option (Nat × Nat × Nat × Nat) :=
  match splitOnChar '.' s with
  | [a, b, c, d] =>
    match parseOctet? a, parseOctet? b, parseOctet? c, parseOctet? d with
    | some x, some y, some z, some w => some (x, y, z, w)
    | _, _, _, _ => none
  | _ => none

/-- The 32-bit number of a dotted quad. -/
def ipNum (q : Nat × Nat × Nat × Nat) : Nat :=
  ((q.1 * 256 + q.2.1) * 256 + q.2.2.1) * 256 + q.2.2.2

/-- Membership of a 32-bit address in a CIDR block `base/p`. -/
def inCidr (n : Nat) (base : Nat) (p : Nat) : Bool :=
  n / 2 ^ (32 - p) = base / 2 ^ (32 - p)

/-! ## proxyScraper.py: the address filter -/

/-- The `BAD_IP_RANGES` table of proxyScraper.py: known CDN edge ranges,
each as (dotted-quad base, mask length). -/
def BAD_IP_RANGES : List ((Nat × Nat × Nat × Nat) × Nat) :=
  [((173, 245, 48, 0), 20),
   ((103, 21, 244, 0), 22),
   ((103, 22, 200, 0), 22),
   ((103, 31, 4, 0), 22),
   ((141, 101, 64, 0), 18),
   ((108, 162, 192, 0), 18),
   ((190, 93, 240, 0), 20),
   ((188, 114, 96, 0), 20),
   ((197, 234, 240, 0), 22),
   ((198, 41, 128, 0), 17),
   ((162, 158, 0, 0), 15),
   ((104, 16, 0, 0), 13),
   ((104, 24, 0, 0), 14),
   ((172, 64, 0, 0), 13),
   ((131, 0, 72, 0), 22),
   ((13, 32, 0, 0), 15),
   ((13, 35, 0, 0), 17),
   ((18, 160, 0, 0), 15),
   ((52, 222, 128, 0), 17),
   ((54, 182, 0, 0), 16),
   ((54, 192, 0, 0), 16),
   ((54, 230, 0, 0), 16),
   ((54, 239, 128, 0), 18),
   ((99, 86, 0, 0), 16),
   ((205, 251, 200, 0), 21),
   ((216, 137, 32, 0), 19)]

/-- The IPv4 networks whose members Python's `ipaddress` reports as
`is_private` (the iana-ipv4-special-registry list). -/
def privateV4Ranges : List ((Nat × Nat × Nat × Nat) × Nat) :=
  [((0, 0, 0, 0), 8),
   ((10, 0, 0, 0), 8),
   ((127, 0, 0, 0), 8),
   ((169, 254, 0, 0), 16),
   ((172, 16, 0, 0), 12),
   ((192, 0, 0, 0), 24),
   ((192, 0, 2, 0), 24),
   ((192, 168, 0, 0), 16),
   ((198, 18, 0, 0), 15),
   ((198, 51, 100, 0), 24),
   ((203, 0, 113, 0), 24),
   ((240, 0, 0, 0), 4),
   ((255, 255, 255, 255), 32)]

/-- Python `ip.is_private` for an IPv4 address given as a 32-bit number. -/
def isPrivateV4 (n : Nat) : Bool :=
  privateV4Ranges.any fun r => inCidr n (ipNum r.1) r.2

/-- Python `ip.is_loopback` for IPv4: the 127.0.0.0/8 block. -/
def isLoopbackV4 (n : Nat) : Bool := inCidr n (ipNum (127, 0, 0, 0)) 8

/-- Python `ip.is_reserved` for IPv4: the 240.0.0.0/4 block. -/
def isReservedV4 (n : Nat) : Bool := inCidr n (ipNum (240, 0, 0, 0)) 4

/-- Python `ip.is_multicast` for IPv4: the 224.0.0.0/4 block. -/
def isMulticastV4 (n : Nat) : Bool := inCidr n (ipNum (224, 0, 0, 0)) 4

/-- `is_bad_ip` of proxyScraper.py: `True` when the string does not parse as
an IP address, or the address is private/loopback/reserved/multicast, one of
three explicit special addresses, or inside one of the `BAD_IP_RANGES`. -/
def is_bad_ip (ip : List Char) : Bool :=
  match parseIPv4? ip with
  | none => true
  | some q =>
    let n := ipNum q
    if isPrivateV4 n || isLoopbackV4 n || isReservedV4 n || isMulticastV4 n then true
    else if q = (0, 0, 0, 0) ∨ q = (255, 255, 255, 255) ∨ q = (127, 0, 0, 1) then true
    else BAD_IP_RANGES.any fun r => inCidr n (ipNum r.1) r.2

/-- The per-source statistics dictionary of `Scraper.filter_proxies`. -/
structure HarvestStats where
  total : Nat
  filtered_bad : Nat
  filtered_invalid : Nat
  valid : Nat
deriving DecidableEq, Repr

/-- Python `set.add` on a set represented as a duplicate-free list
(insertion order kept; the caller later sorts, so order is irrelevant). -/
def setAdd (x : List Char) (s : List (List Char)) : List (List Char) :=
  if x ∈ s then s else s ++ [x]

/-- One iteration of the loop in `Scraper.filter_proxies`: strip the line,
skip it when blank, otherwise count it and classify it as invalid
(no colon, unparseable address, unparseable or out-of-range port),
bad (infrastructure address), or valid (added to the result set). -/
def filterLine (acc : List (List Char) × HarvestStats) (rawLine : List Char) :
    List (List Char) × HarvestStats :=
  let line := pyStrip rawLine
  if line = [] then acc
  else
    let st := { acc.2 with total := acc.2.total + 1 }
    match splitOnce ':' line with
    | none => (acc.1, { st with filtered_invalid := st.filtered_invalid + 1 })
    | some (ipRaw, portRaw) =>
      let ip := pyStrip ipRaw
      let port := pyStrip portRaw
      match parseIPv4? ip with
      | none => (acc.1, { st with filtered_invalid := st.filtered_invalid + 1 })
      | some _ =>
        match pyInt? port with
        | none => (acc.1, { st with filtered_invalid := st.filtered_invalid + 1 })
        | some n =>
          if ¬ (1 ≤ n ∧ n ≤ 65535) then
            (acc.1, { st with filtered_invalid := st.filtered_invalid + 1 })
          else if is_bad_ip ip then
            (acc.1, { st with filtered_bad := st.filtered_bad + 1 })
          else
            (setAdd (ip ++ ':' :: port) acc.1, { st with valid := st.valid + 1 })

/-- `Scraper.filter_proxies`: split the text into lines and fold the
per-line classification, returning the accepted set and the statistics. -/
def filter_proxies (text : List Char) : List (List Char) × HarvestStats :=
  (splitOnChar '\n' text).foldl filterLine ([], ⟨0, 0, 0, 0⟩)

/-! ## proxyScraper.py: the harvest merge and output -/

/-- `set(all_proxies)` in `scrape`: deduplication of the concatenated
per-source results. -/
def dedupProxies (all : List (List Char)) : List (List Char) :=
  all.foldl (fun s x => setAdd x s) []

/-- `sorted(unique_proxies)` in `scrape`: the merged candidate set in
lexicographic order of the `address:port` string. -/
def mergedProxies (all : List (List Char)) : List (List Char) :=
  List.insertionSort (· ≤ ·) (dedupProxies all)

/-- Python `"\n".join(ls)`. -/
def pyJoinNl : List (List Char) → List Char
  | [] => []
  | l :: rest =>
    match rest with
    | [] => l
    | _ :: _ => l ++ '\n' :: pyJoinNl rest

/-- The file content written by `scrape`:
`"\n".join(sorted(unique_proxies)) + "\n"`. -/
def harvestOutput (all : List (List Char)) : List Char :=
  pyJoinNl (mergedProxies all) ++ ['\n']

/-- The file content after `scrape` writes: the file is opened with mode
`"w"`, which truncates, so the prior content is discarded entirely. -/
def harvestWrite (_priorContent : List Char) (all : List (List Char)) : List Char :=
  harvestOutput all

/-! ## proxyChecker.py: the Proxy class -/

/-- `Proxy.SUPPORTED_METHODS`. -/
def SUPPORTED_METHODS : List (List Char) :=
  ["http".toList, "https".toList, "socks4".toList, "socks5".toList]

/-- Python `s.lower()`, modelled for ASCII letters. -/
def pyLower (s : List Char) : List Char := s.map Char.toLower

/-- The shape `\d{1,3}`: one to three ASCII digits. -/
def digits13 (s : List Char) : Bool :=
  s ≠ [] && s.length ≤ 3 && s.all Char.isDigit

/-- The regular-expression test
`re.match(r"^\d{1,3}\.\d{1,3}\.\d{1,3}\.\d{1,3}$", ip)` of `Proxy.is_valid`.
A full match of this pattern is exactly: splitting on `.` yields four parts,
each one to three digits.  Python's `$` also matches just before a single
newline at the very end of the string, so such a trailing newline is removed
first. -/
def reMatchIPv4 (s : List Char) : Bool :=
  let t := if s.getLast? = some '\n' then s.dropLast else s
  match splitOnChar '.' t with
  | [a, b, c, d] => digits13 a && digits13 b && digits13 c && digits13 d
  | _ => false

/-- `Proxy.is_valid` on the (already stripped) proxy string: requires a
nonempty string containing a colon, whose address part matches the dotted-quad
regular expression with every octet value in 0–255, and whose port part is an
integer in 1–65535; any conversion failure yields `false`. -/
def is_valid (pr : List Char) : Bool :=
  if pr = [] then false
  else
    match splitOnce ':' pr with
    | none => false
    | some (ip, port) =>
      if ¬ reMatchIPv4 ip then false
      else
        let parts := (splitOnChar '.' ip).map pyInt?
        if parts.any (· = none) then false
        else if ¬ parts.all (fun p =>
            match p with
            | some v => decide (0 ≤ v ∧ v ≤ 255)
            | none => false) then false
        else
          match pyInt? port with
          | none => false
          | some n => decide (1 ≤ n ∧ n ≤ 65535)

/-- The exceptions `Proxy.__init__` can raise. -/
inductive InitError
  | notImplemented
  | valueError
deriving DecidableEq

/-- A constructed `Proxy` object: a normalized method and a stripped
`address:port` string. -/
structure ProxyObj where
  method : List Char
  proxy : List Char
deriving DecidableEq

/-- `Proxy.__init__`: lower-case and strip the method, reject unsupported
methods, strip the proxy string, and reject it unless `is_valid` holds. -/
def initProxy (method0 proxy0 : List Char) : Except InitError ProxyObj :=
  let m := pyStrip (pyLower method0)
  if m ∉ SUPPORTED_METHODS then .error .notImplemented
  else
    let p := pyStrip proxy0
    if is_valid p then .ok ⟨m, p⟩ else .error .valueError

/-! ## proxyChecker.py: loading, saving and the validation run -/

/-- `_process_proxy_line`: strip the line, skip blank lines and `#` comments,
construct a `Proxy` and turn either constructor exception into `none`. -/
def processProxyLine (method : List Char) (line : List Char) : Option ProxyObj :=
  let l := pyStrip line
  if l = [] ∨ l.head? = some '#' then none
  else
    match initProxy method l with
    | .ok p => some p
    | .error _ => none

/-- `load_proxies_from_file` on the file's lines: collect the successfully
constructed proxies in order, stopping once the optional limit is reached. -/
def loadProxies (lines : List (List Char)) (method : List Char)
    (limit : Option Nat) : List ProxyObj :=
  lines.foldl
    (fun acc line =>
      if (match limit with | some k => decide (acc.length ≥ k) | none => false) then acc
      else
        match processProxyLine method line with
        | some p => acc ++ [p]
        | none => acc)
    []

/-- `save_valid_proxies`: the lines written to the output file — the valid
proxy strings sorted (`sorted(valid_proxies, key=lambda p: p.proxy)`), one
per line.  There is no deduplication step. -/
def save_valid_proxies (valid : List (List Char)) : List (List Char) :=
  List.insertionSort (· ≤ ·) valid

/-- The observable effects of one `check` run: the lines written (none when
the run returned early), the number of probes dispatched, the input file's
contents afterwards, and the divisor used for the average-time summary line
(none when that line was never printed). -/
structure RunTrace where
  written : Option (List (List Char))
  probesDispatched : Nat
  fileAfter : List (List Char)
  avgDivisor : Option Nat
deriving DecidableEq

/-- `check` (normal completion, no interruption): load the candidates; when
none load, return before dispatching any probe and before writing; otherwise
dispatch one probe per candidate, collect the survivors, and overwrite the
input file with the sorted surviving lines.  The nondeterministic completion
order of the thread pool is determinised to submission order; the persisted
content is unaffected because it is sorted before writing. -/
def checkRun (fileLines : List (List Char)) (method : List Char)
    (limit : Option Nat) (probeOk : ProxyObj → Bool) : RunTrace :=
  let proxies := loadProxies fileLines method limit
  if proxies = [] then ⟨none, 0, fileLines, none⟩
  else
    let valid := (proxies.filter probeOk).map ProxyObj.proxy
    let saved := save_valid_proxies valid
    ⟨some saved, proxies.length, saved, some proxies.length⟩

/-- The observable outcome of `_run_proxy_check_threadpool`: where the
surviving set was saved, what was saved, the exit code (none when the
function returns normally), and whether the cancellation summary was
printed. -/
structure PoolOutcome where
  savedPath : List Char
  savedLines : List (List Char)
  exitCode : Option Nat
  cancelledSummary : Bool
deriving DecidableEq

/-- `sys.exit` code of a successful `main`. -/
def successExitCode : Nat := 0

/-- `sys.exit(1)`: the generic-failure code used by `main`'s error handlers
and the argument validators. -/
def genericFailureExitCode : Nat := 1

/-- `sys.exit(130)` in the `KeyboardInterrupt` handler of
`_run_proxy_check_threadpool`. -/
def cancelExitCode : Nat := 130

/-- `_run_proxy_check_threadpool`: on `KeyboardInterrupt` it saves the
surviving set accumulated at that moment to the same file path, prints the
distinct cancellation summary and exits with code 130; on normal completion
it saves the full surviving set to that path and returns. -/
def runThreadpool (interrupted : Bool) (validAccum : List (List Char))
    (file : List Char) : PoolOutcome :=
  if interrupted then
    ⟨file, save_valid_proxies validAccum, some cancelExitCode, true⟩
  else
    ⟨file, save_valid_proxies validAccum, none, false⟩

/-! ## proxyChecker.py: the SOCKS probe's process-wide state -/

/-- The process-wide `socket.socket` factory: either the original value or
the PySocks replacement configured for one candidate
(`socks.SOCKS4 = 1`, `socks.SOCKS5 = 2`). -/
inductive GlobalSocketFactory
  | original
  | socksPatched (socksType : Nat) (host : List Char) (port : Int)
deriving DecidableEq

/-- The `socks_type` chosen by `_check_socks_proxy`. -/
def socksTypeOf (method : List Char) : Nat :=
  if method = "socks4".toList then 1 else 2

/-- The successive values of the process-wide `socket.socket` factory during
one execution of `Proxy._check_socks_proxy`: the code calls
`socks.set_default_proxy` and assigns `socket.socket = socks.socksocket`,
performs the request, and restores the original factory on every path
(the `finally` block on success, the explicit reassignment on error). -/
def checkSocksProxyStates (method proxyStr : List Char) (_netOk : Bool) :
    List GlobalSocketFactory :=
  match splitOnChar ':' proxyStr with
  | [ip, port] =>
    match pyInt? port with
    | none => [GlobalSocketFactory.original]
    | some n =>
      [GlobalSocketFactory.original,
       GlobalSocketFactory.socksPatched (socksTypeOf method) ip n,
       GlobalSocketFactory.original]
  | _ => [GlobalSocketFactory.original]

/-! ## proxyChecker.py: the probe boundary -/

/-- The failure categories a probe can encounter. -/
inductive NetFailure
  | dnsFailure
  | connectionRefused
  | timeoutExpired
  | protocolViolation
  | tlsFailure
deriving DecidableEq

/-- The target-site coercion at the top of `Proxy.check`: a URL already
starting with `http://` or `https://` is kept, anything else gets
`https://` prepended. -/
def effectiveSite (site : List Char) : List Char :=
  if "http://".toList.isPrefixOf site || "https://".toList.isPrefixOf site then site
  else "https://".toList ++ site

/-- The tuple returned by `Proxy.check`, together with the URL the probe
actually requested. -/
structure CheckOutcome where
  ok : Bool
  elapsed : Nat
  failure : Option NetFailure
  requestedUrl : List Char
deriving DecidableEq

/-- `Proxy.check`: coerce the site, then perform the request.  The network
interaction is abstracted as `net`: either a latency on success or the
exception the transport raised.  Every code path of `check`,
`_check_socks_proxy` and `_check_http_proxy` catches its exceptions and
returns `(False, 0.0, e)`, so the embedding is a total function. -/
def checkProbe (_method : List Char) (site : List Char)
    (net : Except NetFailure Nat) : CheckOutcome :=
  let s := effectiveSite site
  match net with
  | .ok t => ⟨true, t, none, s⟩
  | .error e => ⟨false, 0, some e, s⟩

/-! ## proxyChecker.py: pool sizing -/

/-- The worker-pool size chosen by `_run_proxy_check_threadpool`:
`ThreadPoolExecutor(max_workers=min(len(proxies), 100))`.  The function
receives no concurrency-limit parameter. -/
def poolMaxWorkers (numProxies : Nat) : Nat := min numProxies 100

/-- The default of the `--max-threads` command-line option
(`_setup_argument_parser`); the option's value is parsed but never passed to
`check` or to the thread pool. -/
def defaultMaxThreads : Nat := 10

/-- What `Scraper.filter_proxies` guarantees about every accepted token:
it is `ip:port` where `ip` parses as an IPv4 dotted quad (four octets, each
at most 255), the port is an integer in 1–65535, and the address is not a
private/reserved/infrastructure address. -/
def acceptedTokenProp (tok : List Char) : Prop :=
  ∃ ip port q n,
    tok = ip ++ ':' :: port
    ∧ parseIPv4? ip = some q
    ∧ q.1 ≤ 255 ∧ q.2.1 ≤ 255 ∧ q.2.2.1 ≤ 255 ∧ q.2.2.2 ≤ 255
    ∧ pyInt? port = some n ∧ 1 ≤ n ∧ n ≤ 65535
    ∧ is_bad_ip ip = false

/-! ## Helper lemmas -/

theorem mem_setAdd {t x : List Char} {s : List (List Char)}
    (h : t ∈ setAdd x s) : t = x ∨ t ∈ s := by
  unfold setAdd at h
  split at h
  · exact Or.inr h
  · rcases List.mem_append.1 h with h' | h'
    · exact Or.inr h'
    · simp at h'
      exact Or.inl h'

theorem mem_setAdd_iff {x y : List Char} {s : List (List Char)} :
    x ∈ setAdd y s ↔ x ∈ s ∨ x = y := by
  unfold setAdd
  split
  · rename_i hy
    constructor
    · exact Or.inl
    · rintro (h | rfl)
      · exact h
      · exact hy
  · simp [or_comm]

theorem nodup_setAdd {y : List Char} {s : List (List Char)} (hs : s.Nodup) :
    (setAdd y s).Nodup := by
  unfold setAdd
  split
  · exact hs
  · rename_i hy
    simp [List.nodup_append, hs, hy]

theorem mem_foldl_setAdd (l : List (List Char)) (s : List (List Char))
    (x : List Char) :
    x ∈ l.foldl (fun acc y => setAdd y acc) s ↔ x ∈ s ∨ x ∈ l := by
  induction l generalizing s with
  | nil => simp
  | cons y tl ih =>
    simp only [List.foldl_cons, ih, mem_setAdd_iff, List.mem_cons]
    tauto

theorem nodup_foldl_setAdd (l : List (List Char)) (s : List (List Char))
    (hs : s.Nodup) : (l.foldl (fun acc y => setAdd y acc) s).Nodup := by
  induction l generalizing s with
  | nil => exact hs
  | cons y tl ih => exact ih _ (nodup_setAdd hs)

theorem mergedProxies_sorted (all : List (List Char)) :
    List.Sorted (· ≤ ·) (mergedProxies all) :=
  List.sorted_insertionSort _ _

theorem mergedProxies_nodup (all : List (List Char)) :
    (mergedProxies all).Nodup :=
  (List.perm_insertionSort _ _).nodup_iff.mpr (nodup_foldl_setAdd all [] List.nodup_nil)

theorem mem_mergedProxies (all : List (List Char)) (t : List Char) :
    t ∈ mergedProxies all ↔ t ∈ all := by
  rw [mergedProxies, (List.perm_insertionSort _ _).mem_iff, dedupProxies,
    mem_foldl_setAdd]
  simp

theorem splitOnChar_ne_nil (c : Char) (s : List Char) : splitOnChar c s ≠ [] := by
  cases s with
  | nil => simp [splitOnChar]
  | cons x xs =>
    unfold splitOnChar
    split <;> split <;> simp

theorem splitOnChar_cons_self (c : Char) (l : List Char) :
    splitOnChar c (c :: l) = [] :: splitOnChar c l := by
  cases h : splitOnChar c l with
  | nil => exact absurd h (splitOnChar_ne_nil c l)
  | cons r rs =>
    rw [splitOnChar, h]
    simp

theorem splitOnChar_cons_of_ne {c x : Char} (l : List Char) (hx : ¬ x = c) :
    ∃ r rs, splitOnChar c l = r :: rs ∧ splitOnChar c (x :: l) = (x :: r) :: rs := by
  cases h : splitOnChar c l with
  | nil => exact absurd h (splitOnChar_ne_nil c l)
  | cons r rs =>
    refine ⟨r, rs, rfl, ?_⟩
    rw [splitOnChar, h]
    simp [hx]

theorem splitOnChar_append_last_length {c a : Char} (hac : ¬ a = c)
    (s : List Char) :
    (splitOnChar c (s ++ [a])).length = (splitOnChar c s).length := by
  induction s with
  | nil => simp [splitOnChar, hac]
  | cons x xs ih =>
    by_cases hx : x = c
    · subst hx
      rw [List.cons_append, splitOnChar_cons_self, splitOnChar_cons_self]
      simp [ih]
    · obtain ⟨r, rs, h1, h2⟩ := splitOnChar_cons_of_ne (xs ++ [a]) hx
      obtain ⟨r', rs', h1', h2'⟩ := splitOnChar_cons_of_ne xs hx
      rw [List.cons_append, h2, h2']
      have := ih
      rw [h1, h1'] at this
      simpa using this

theorem splitOnChar_prepend (c : Char) (l rest : List Char) (hl : c ∉ l) :
    splitOnChar c (l ++ c :: rest) = l :: splitOnChar c rest := by
  induction l with
  | nil => simpa using splitOnChar_cons_self c rest
  | cons x xs ih =>
    have hx : ¬ x = c := by
      intro h
      exact hl (by simp [h])
    have hxs : c ∉ xs := fun h => hl (List.mem_cons_of_mem _ h)
    obtain ⟨r, rs, h1, h2⟩ := splitOnChar_cons_of_ne (xs ++ c :: rest) hx
    rw [ih hxs] at h1
    cases h1
    rw [List.cons_append, h2]

theorem split_pyJoinNl (ls : List (List Char)) (hnl : ∀ l ∈ ls, '\n' ∉ l)
    (hne : ls ≠ []) :
    splitOnChar '\n' (pyJoinNl ls ++ ['\n']) = ls ++ [[]] := by
  induction ls with
  | nil => exact absurd rfl hne
  | cons x tl ih =>
    cases tl with
    | nil =>
      have hx : '\n' ∉ x := hnl x (by simp)
      simpa using splitOnChar_prepend '\n' x [] hx
    | cons y tl2 =>
      have hx : '\n' ∉ x := hnl x (by simp)
      have hrw : pyJoinNl (x :: y :: tl2) = x ++ '\n' :: pyJoinNl (y :: tl2) := rfl
      rw [hrw, List.append_assoc, List.cons_append]
      rw [splitOnChar_prepend '\n' x _ hx]
      rw [ih (fun l hl => hnl l (List.mem_cons_of_mem _ hl)) (by simp)]
      rfl

theorem filterLine_blank (acc : List (List Char) × HarvestStats) (line : List Char)
    (h : pyStrip line = []) : filterLine acc line = acc := by
  unfold filterLine
  simp [h]

theorem filterLine_step (acc : List (List Char) × HarvestStats) (line : List Char)
    (h : pyStrip line ≠ []) :
    (filterLine acc line).2.total = acc.2.total + 1
    ∧ (filterLine acc line).2.valid + (filterLine acc line).2.filtered_bad
        + (filterLine acc line).2.filtered_invalid
      = acc.2.valid + acc.2.filtered_bad + acc.2.filtered_invalid + 1 := by
  unfold filterLine
  simp only [h, if_false]
  repeat' split
  all_goals simp
  all_goals omega

theorem foldl_filterLine_stats (lines : List (List Char))
    (acc : List (List Char) × HarvestStats) :
    (lines.foldl filterLine acc).2.total
      = acc.2.total + lines.countP (fun l => decide (pyStrip l ≠ []))
    ∧ (lines.foldl filterLine acc).2.valid + (lines.foldl filterLine acc).2.filtered_bad
        + (lines.foldl filterLine acc).2.filtered_invalid
      = acc.2.valid + acc.2.filtered_bad + acc.2.filtered_invalid
        + lines.countP (fun l => decide (pyStrip l ≠ [])) := by
  induction lines generalizing acc with
  | nil => simp
  | cons l ls ih =>
    by_cases h : pyStrip l = []
    · have hb := filterLine_blank acc l h
      simp only [List.foldl_cons, hb, List.countP_cons, h]
      have := ih acc
      simp [h] at this ⊢
      omega
    · have hs := filterLine_step acc l h
      simp only [List.foldl_cons, List.countP_cons]
      have := ih (filterLine acc l)
      simp [h] at this ⊢
      omega

theorem parseOctet?_le {s : List Char} {v : Nat} (h : parseOctet? s = some v) :
    v ≤ 255 := by
  unfold parseOctet? at h
  repeat' split at h
  all_goals simp_all
  omega

theorem parseIPv4?_octets {s : List Char} {q : Nat × Nat × Nat × Nat}
    (h : parseIPv4? s = some q) :
    q.1 ≤ 255 ∧ q.2.1 ≤ 255 ∧ q.2.2.1 ≤ 255 ∧ q.2.2.2 ≤ 255 := by
  unfold parseIPv4? at h
  repeat' split at h
  all_goals cases h
  rename_i ha hb hc hd
  exact ⟨parseOctet?_le ha, parseOctet?_le hb, parseOctet?_le hc, parseOctet?_le hd⟩

theorem filterLine_accepted (acc : List (List Char) × HarvestStats)
    (line : List Char) (h : ∀ t ∈ acc.1, acceptedTokenProp t) :
    ∀ t ∈ (filterLine acc line).1, acceptedTokenProp t := by
  intro t ht
  unfold filterLine at ht
  dsimp only at ht
  split at ht
  · exact h t ht
  · split at ht
    · exact h t ht
    · split at ht
      · exact h t ht
      · split at ht
        · exact h t ht
        · split at ht
          · exact h t ht
          · split at ht
            · exact h t ht
            · rename_i hne xo ipRaw portRaw hsplit xi q hip xn n hport hrange hbad
              dsimp only at ht
              rcases mem_setAdd ht with rfl | hmem
              · obtain ⟨h1, h2, h3, h4⟩ := parseIPv4?_octets hip
                rw [not_not] at hrange
                refine ⟨_, _, q, n, rfl, hip, h1, h2, h3, h4, hport,
                  hrange.1, hrange.2, ?_⟩
                simpa using hbad
              · exact h t hmem

theorem filter_proxies_accepted (text : List Char) :
    ∀ t ∈ (filter_proxies text).1, acceptedTokenProp t := by
  unfold filter_proxies
  have main : ∀ (lines : List (List Char)) (acc : List (List Char) × HarvestStats),
      (∀ t ∈ acc.1, acceptedTokenProp t) →
      ∀ t ∈ (lines.foldl filterLine acc).1, acceptedTokenProp t := by
    intro lines
    induction lines with
    | nil =>
      intro acc hacc
      simpa using hacc
    | cons l ls ih =>
      intro acc hacc
      exact ih _ (filterLine_accepted acc l hacc)
  exact main _ _ (by simp)

theorem eq_dropLast_append_of_getLast? {l : List Char} {a : Char}
    (h : l.getLast? = some a) : l = l.dropLast ++ [a] := by
  induction l using List.reverseRecOn with
  | nil => simp at h
  | append_singleton xs x _ =>
    rw [List.getLast?_concat] at h
    cases h
    simp

theorem reMatchIPv4_split_length {ip : List Char} (h : reMatchIPv4 ip = true) :
    (splitOnChar '.' ip).length = 4 := by
  unfold reMatchIPv4 at h
  by_cases hl : ip.getLast? = some '\n'
  · rw [if_pos hl] at h
    dsimp only at h
    have h4 : (splitOnChar '.' ip.dropLast).length = 4 := by
      split at h
      · rename_i heq
        rw [heq]
        rfl
      · exact absurd h (by simp)
    calc (splitOnChar '.' ip).length
        = (splitOnChar '.' (ip.dropLast ++ ['\n'])).length := by
          rw [← eq_dropLast_append_of_getLast? hl]
      _ = (splitOnChar '.' ip.dropLast).length :=
          splitOnChar_append_last_length (by decide) _
      _ = 4 := h4
  · rw [if_neg hl] at h
    dsimp only at h
    split at h
    · rename_i heq
      rw [heq]
      rfl
    · exact absurd h (by simp)

theorem is_valid_spec {p : List Char} (h : is_valid p = true) :
    ∃ ip port, splitOnce ':' p = some (ip, port)
      ∧ (splitOnChar '.' ip).length = 4
      ∧ (∀ part ∈ splitOnChar '.' ip,
          ∃ v : Int, pyInt? part = some v ∧ 0 ≤ v ∧ v ≤ 255)
      ∧ ∃ n : Int, pyInt? port = some n ∧ 1 ≤ n ∧ n ≤ 65535 := by
  unfold is_valid at h
  split at h
  · exact absurd h (by simp)
  · split at h
    · exact absurd h (by simp)
    · rename_i hpne pr ip port hsplit
      split at h
      · exact absurd h (by simp)
      · rename_i hre
        dsimp only at h
        split at h
        · exact absurd h (by simp)
        · split at h
          · exact absurd h (by simp)
          · rename_i hnone hall
            split at h
            · exact absurd h (by simp)
            · rename_i n hport
              rw [not_not] at hre
              refine ⟨ip, port, hsplit, reMatchIPv4_split_length hre, ?_,
                n, hport, ?_, ?_⟩
              · intro part hpart
                rw [not_not] at hall
                have hmem : pyInt? part ∈ (splitOnChar '.' ip).map pyInt? :=
                  List.mem_map_of_mem _ hpart
                have hpred := List.all_eq_true.1 hall _ hmem
                cases hv : pyInt? part with
                | none =>
                  rw [hv] at hpred
                  simp at hpred
                | some v =>
                  rw [hv] at hpred
                  simp only [decide_eq_true_eq] at hpred
                  exact ⟨v, rfl, hpred.1, hpred.2⟩
              · exact (of_decide_eq_true h).1
              · exact (of_decide_eq_true h).2

/-! ## Claim theorems -/

/-- C1: the claim says the worker pool has size
`min(len(candidates), concurrencyLimit)` for every configured concurrency
limit.  The code hard-codes `min(len(proxies), 100)` and never consults the
`--max-threads` option (default 10), so with 50 candidates and the default
configured limit the pool has 50 workers, not `min 50 10 = 10`. -/
theorem pool_size_ignores_configured_limit :
    poolMaxWorkers 50 = 50
    ∧ min 50 defaultMaxThreads = 10
    ∧ poolMaxWorkers 50 ≠ min 50 defaultMaxThreads := by
  decide

/-- C3: the claim says a SOCKS probe never reassigns the process's default
socket factory.  The embedded trace of `Proxy._check_socks_proxy` for the
socks4 candidate `1.2.3.4:1080` shows the global `socket.socket` factory is
reassigned to the PySocks replacement during the probe (and restored only
afterwards). -/
theorem socks_probe_mutates_global_socket :
    GlobalSocketFactory.socksPatched 1 "1.2.3.4".toList 1080
      ∈ checkSocksProxyStates "socks4".toList "1.2.3.4:1080".toList true
    ∧ GlobalSocketFactory.socksPatched 1 "1.2.3.4".toList 1080 ≠ GlobalSocketFactory.original
    ∧ checkSocksProxyStates "socks4".toList "1.2.3.4:1080".toList true
      = [GlobalSocketFactory.original,
         GlobalSocketFactory.socksPatched 1 "1.2.3.4".toList 1080,
         GlobalSocketFactory.original] := by
  decide

/-- C4: on interruption mid-run, the surviving set accumulated at that moment
is saved to the same path that normal completion uses, the distinct
cancellation summary is printed (and is not printed on normal completion),
and the process exits with code 130 — different from both success (0) and
generic failure (1). -/
theorem cancellation_persists_and_exits_distinctly
    (validAccum : List (List Char)) (file : List Char) :
    (runThreadpool true validAccum file).savedPath
      = (runThreadpool false validAccum file).savedPath
    ∧ (runThreadpool true validAccum file).savedLines = save_valid_proxies validAccum
    ∧ (runThreadpool true validAccum file).cancelledSummary = true
    ∧ (runThreadpool false validAccum file).cancelledSummary = false
    ∧ (runThreadpool true validAccum file).exitCode = some cancelExitCode
    ∧ cancelExitCode ≠ successExitCode
    ∧ cancelExitCode ≠ genericFailureExitCode :=
  ⟨rfl, rfl, rfl, rfl, rfl, by decide, by decide⟩

/-- C10: when loading the input file yields no valid candidate, the run
returns early: no probe is dispatched, nothing is written, the file's
contents are unchanged, and the average-time division is never performed. -/
theorem empty_load_returns_early (fileLines : List (List Char))
    (method : List Char) (limit : Option Nat) (probeOk : ProxyObj → Bool)
    (h : loadProxies fileLines method limit = []) :
    checkRun fileLines method limit probeOk = ⟨none, 0, fileLines, none⟩ := by
  unfold checkRun
  simp [h]

/-- Witness for `empty_load_returns_early`: a file of only a comment, blank
lines and a malformed entry loads zero candidates, and the run leaves it
untouched. -/
theorem empty_load_returns_early_witness :
    loadProxies ["# comment".toList, "".toList, "   ".toList, "not-a-proxy".toList]
      "http".toList none = []
    ∧ checkRun ["# comment".toList, "".toList, "   ".toList, "not-a-proxy".toList]
        "http".toList none (fun _ => true)
      = ⟨none, 0, ["# comment".toList, "".toList, "   ".toList, "not-a-proxy".toList], none⟩ :=
  ⟨by decide, empty_load_returns_early _ _ _ _ (by decide)⟩

/-- C2 counterexample: the claim says the file written on normal completion
never contains duplicate `address:port` entries, for every input list
including one with duplicate lines.  An input file with the line
`1.1.1.1:80` twice, with both probes succeeding, is persisted with both
copies: `save_valid_proxies` sorts but does not deduplicate. -/
theorem saved_file_can_contain_duplicates :
    (checkRun ["1.1.1.1:80".toList, "1.1.1.1:80".toList] "http".toList none
        (fun _ => true)).written
      = some ["1.1.1.1:80".toList, "1.1.1.1:80".toList]
    ∧ ¬ (["1.1.1.1:80".toList, "1.1.1.1:80".toList] : List (List Char)).Nodup := by
  exact ⟨by decide, by decide⟩

/-- C2 amended: on normal completion the surviving list — exactly the loaded
candidates whose probe succeeded, so failed and never-loaded candidates are
dropped — is persisted to the input file path sorted by the `address:port`
string, overwriting the input file; duplicates among the survivors are
written as they are (no deduplication). -/
theorem normal_completion_persists_sorted_survivors
    (fileLines : List (List Char)) (method : List Char) (limit : Option Nat)
    (probeOk : ProxyObj → Bool)
    (h : loadProxies fileLines method limit ≠ []) :
    ∃ saved,
      (checkRun fileLines method limit probeOk).written = some saved
      ∧ (checkRun fileLines method limit probeOk).fileAfter = saved
      ∧ List.Sorted (· ≤ ·) saved
      ∧ saved.Perm
          (((loadProxies fileLines method limit).filter probeOk).map ProxyObj.proxy) := by
  refine ⟨save_valid_proxies
    (((loadProxies fileLines method limit).filter probeOk).map ProxyObj.proxy),
    ?_, ?_, ?_, ?_⟩
  · unfold checkRun
    simp [h]
  · unfold checkRun
    simp [h]
  · exact List.sorted_insertionSort _ _
  · exact List.perm_insertionSort _ _

/-- Witness for `normal_completion_persists_sorted_survivors`: two valid
lines (out of order) and one malformed line; both probes succeed and the
file ends up sorted with exactly the two survivors. -/
theorem normal_completion_persists_sorted_survivors_witness :
    loadProxies ["2.2.2.2:80".toList, "1.1.1.1:80".toList, "bad".toList]
      "http".toList none ≠ []
    ∧ ∃ saved,
        (checkRun ["2.2.2.2:80".toList, "1.1.1.1:80".toList, "bad".toList]
            "http".toList none (fun _ => true)).written = some saved
        ∧ (checkRun ["2.2.2.2:80".toList, "1.1.1.1:80".toList, "bad".toList]
            "http".toList none (fun _ => true)).fileAfter = saved
        ∧ List.Sorted (· ≤ ·) saved
        ∧ saved.Perm
            (((loadProxies ["2.2.2.2:80".toList, "1.1.1.1:80".toList, "bad".toList]
                "http".toList none).filter (fun _ => true)).map ProxyObj.proxy) :=
  ⟨by decide, normal_completion_persists_sorted_survivors _ _ _ _ (by decide)⟩

/-- C5: the filter accepts a token only if its address parses as four
dot-separated octets each in 0–255, its port is an integer in 1–65535, and
the address is not private/reserved/infrastructure; and on the concrete
input `1.2.3.4:80`, `10.0.0.1:80`, `bad-line`, `5.6.7.8:99999` it accepts
exactly `1.2.3.4:80` with rejected-infrastructure = 1 and
rejected-malformed = 2 (out of 4 tokens seen). -/
theorem filter_accepts_only_clean_tokens :
    (∀ text t, t ∈ (filter_proxies text).1 → acceptedTokenProp t)
    ∧ filter_proxies "1.2.3.4:80\n10.0.0.1:80\nbad-line\n5.6.7.8:99999".toList
      = (["1.2.3.4:80".toList], ⟨4, 1, 2, 1⟩) :=
  ⟨fun text => filter_proxies_accepted text, by decide⟩

/-- Witness for `filter_accepts_only_clean_tokens`: the accepted-token
property holds at the concrete accepted token. -/
theorem filter_accepts_only_clean_tokens_witness :
    acceptedTokenProp "1.2.3.4:80".toList :=
  filter_accepts_only_clean_tokens.1
    "1.2.3.4:80\n10.0.0.1:80\nbad-line\n5.6.7.8:99999".toList
    "1.2.3.4:80".toList (by decide)

/-- C6: for every input text, the per-source statistics satisfy
`accepted + rejectedInfrastructure + rejectedMalformed = totalTokensSeen`,
and `totalTokensSeen` counts exactly the non-blank tokens examined. -/
theorem harvest_stats_sum_matches_total (text : List Char) :
    (filter_proxies text).2.valid + (filter_proxies text).2.filtered_bad
      + (filter_proxies text).2.filtered_invalid = (filter_proxies text).2.total
    ∧ (filter_proxies text).2.total
      = (splitOnChar '\n' text).countP (fun l => decide (pyStrip l ≠ [])) := by
  have h := foldl_filterLine_stats (splitOnChar '\n' text) ([], ⟨0, 0, 0, 0⟩)
  dsimp only at h
  unfold filter_proxies
  constructor
  · omega
  · omega

/-- C7: for every combination of per-source results (overlaps included),
the merged harvest output is sorted lexicographically on the `address:port`
string, contains no duplicates, contains exactly the union of the source
results, is written independently of any prior file content (mode `"w"`),
and — when the tokens are newline-free and some token exists — the written
content splits back into one token per line followed by the trailing
newline's empty remainder. -/
theorem harvest_merge_sorted_dedup_written
    (sourceResults : List (List (List Char))) :
    List.Sorted (· ≤ ·) (mergedProxies sourceResults.flatten)
    ∧ (mergedProxies sourceResults.flatten).Nodup
    ∧ (∀ t, t ∈ mergedProxies sourceResults.flatten ↔ t ∈ sourceResults.flatten)
    ∧ (∀ prior1 prior2 : List Char,
        harvestWrite prior1 sourceResults.flatten
          = harvestWrite prior2 sourceResults.flatten)
    ∧ ((∀ t ∈ sourceResults.flatten, '\n' ∉ t) → sourceResults.flatten ≠ [] →
        splitOnChar '\n' (harvestOutput sourceResults.flatten)
          = mergedProxies sourceResults.flatten ++ [[]]) := by
  refine ⟨mergedProxies_sorted _, mergedProxies_nodup _, mem_mergedProxies _,
    fun _ _ => rfl, ?_⟩
  intro hnl hne
  have hnl' : ∀ l ∈ mergedProxies sourceResults.flatten, '\n' ∉ l := by
    intro l hl
    exact hnl l ((mem_mergedProxies _ l).1 hl)
  have hne' : mergedProxies sourceResults.flatten ≠ [] := by
    obtain ⟨t, ht⟩ := List.exists_mem_of_ne_nil _ hne
    intro hcon
    have hmem := (mem_mergedProxies sourceResults.flatten t).2 ht
    rw [hcon] at hmem
    simp at hmem
  exact split_pyJoinNl _ hnl' hne'

/-- Witness for `harvest_merge_sorted_dedup_written`: two overlapping
sources merge into a sorted, duplicate-free output with one token per
line. -/
theorem harvest_merge_sorted_dedup_written_witness :
    List.Sorted (· ≤ ·)
      (mergedProxies [["2.2.2.2:80".toList, "1.1.1.1:80".toList],
        ["1.1.1.1:80".toList]].flatten)
    ∧ (mergedProxies [["2.2.2.2:80".toList, "1.1.1.1:80".toList],
        ["1.1.1.1:80".toList]].flatten).Nodup
    ∧ splitOnChar '\n'
        (harvestOutput [["2.2.2.2:80".toList, "1.1.1.1:80".toList],
          ["1.1.1.1:80".toList]].flatten)
      = mergedProxies [["2.2.2.2:80".toList, "1.1.1.1:80".toList],
          ["1.1.1.1:80".toList]].flatten ++ [[]] := by
  obtain ⟨h1, h2, h3, h4, h5⟩ := harvest_merge_sorted_dedup_written
    [["2.2.2.2:80".toList, "1.1.1.1:80".toList], ["1.1.1.1:80".toList]]
  exact ⟨h1, h2, h5 (by decide) (by decide)⟩

/-- C8: a probe never raises past its boundary — every transport failure
category yields the tuple `(False, 0.0, e)` carrying the failure as its
reason — and a bare target host (no `http://`/`https://` lead) is coerced
by prefixing `https://`. -/
theorem probe_never_raises_and_coerces_site (method site : List Char)
    (e : NetFailure) :
    checkProbe method site (.error e)
      = ⟨false, 0, some e, effectiveSite site⟩
    ∧ (("http://".toList.isPrefixOf site
          || "https://".toList.isPrefixOf site) = false →
        effectiveSite site = "https://".toList ++ site) := by
  refine ⟨rfl, fun h => ?_⟩
  unfold effectiveSite
  rw [h]
  simp

/-- Witness for `probe_never_raises_and_coerces_site`: a timeout against
the bare host `example.com` yields a non-raised failure outcome with the
coerced HTTPS URL. -/
theorem probe_never_raises_and_coerces_site_witness :
    checkProbe "http".toList "example.com".toList (.error .timeoutExpired)
      = ⟨false, 0, some .timeoutExpired, effectiveSite "example.com".toList⟩
    ∧ effectiveSite "example.com".toList = "https://example.com".toList := by
  obtain ⟨h1, h2⟩ := probe_never_raises_and_coerces_site
    "http".toList "example.com".toList .timeoutExpired
  refine ⟨h1, ?_⟩
  rw [h2 (by decide)]
  decide

/-- C9: whenever `Proxy.__init__` returns (rather than raising), the
resulting object's method is supported and its proxy string splits into an
address of exactly four dot-separated parts, each an integer in 0–255, and
a port that is an integer in 1–65535; a `Proxy` with an out-of-range port
never exists. -/
theorem candidate_port_and_octets_in_range (m0 p0 : List Char) (pr : ProxyObj)
    (h : initProxy m0 p0 = .ok pr) :
    pr.method ∈ SUPPORTED_METHODS
    ∧ ∃ ip port, splitOnce ':' pr.proxy = some (ip, port)
      ∧ (splitOnChar '.' ip).length = 4
      ∧ (∀ part ∈ splitOnChar '.' ip,
          ∃ v : Int, pyInt? part = some v ∧ 0 ≤ v ∧ v ≤ 255)
      ∧ ∃ n : Int, pyInt? port = some n ∧ 1 ≤ n ∧ n ≤ 65535 := by
  unfold initProxy at h
  dsimp only at h
  split at h
  · exact absurd h (by simp)
  · rename_i hmem
    split at h
    · rename_i hv
      cases h
      exact ⟨not_not.1 hmem, is_valid_spec hv⟩
    · exact absurd h (by simp)

/-- Witness for `candidate_port_and_octets_in_range`: the concrete
construction `Proxy("http", "1.2.3.4:80")` succeeds and satisfies the
range guarantees. -/
theorem candidate_port_and_octets_in_range_witness :
    (⟨"http".toList, "1.2.3.4:80".toList⟩ : ProxyObj).method ∈ SUPPORTED_METHODS
    ∧ ∃ ip port,
        splitOnce ':' (⟨"http".toList, "1.2.3.4:80".toList⟩ : ProxyObj).proxy
          = some (ip, port)
        ∧ (splitOnChar '.' ip).length = 4
        ∧ (∀ part ∈ splitOnChar '.' ip,
            ∃ v : Int, pyInt? part = some v ∧ 0 ≤ v ∧ v ≤ 255)
        ∧ ∃ n : Int, pyInt? port = some n ∧ 1 ≤ n ∧ n ≤ 65535 :=
  candidate_port_and_octets_in_range "http".toList "1.2.3.4:80".toList
    ⟨"http".toList, "1.2.3.4:80".toList⟩ (by rfl)

end ProxyRepo
